import Mathlib

/-!
Shallow embedding of `src/wrapper/events/sync.rs` (mpv-rs event layer).

The embedding models, faithfully to the Rust source:
  * the `Event` / `PropertyData` data model and their `as_id`,
    `structural_eq`, `format` and `from_raw` functions;
  * the drain loop inside `EventIter::next` (lines 435-470) over an
    explicit script of raw events (`mpv_wait_event` results);
  * the claim-from-shared-queue branch of `EventIter::next`
    (lines 471-497) and the outer `loop` with explicit fuel;
  * `Mpv::observe_events` (lines 97-173) with the two global registries
    `ev_to_observe` / `ev_to_observe_properties` and an engine oracle
    recording the issued C-API calls and scripting their status codes;
  * `EventIter::drop` (lines 374-418), including the (dead) nested
    log-message branch of `compare_ev_unobserve`.

Rust `panic!` / `unreachable!` / failed `assert!` / `.unwrap()` are
modelled as `none` (for pure decoding) or a dedicated `panicked`
outcome (for `observe_events`).
-/

namespace MpvRs

/-- Raw event ids of the mpv C API (`mpv_event_id`). `None` is the
"no event pending" sentinel, `QueueOverflow` the overflow signal;
`Other` stands for the remaining ids the wrapper never matches on. -/
inductive MpvEventId where
  | None
  | LogMessage
  | StartFile
  | EndFile
  | FileLoaded
  | Idle
  | Tick
  | VideoReconfig
  | AudioReconfig
  | Seek
  | PlaybackRestart
  | PropertyChange
  | QueueOverflow
  | Other
deriving DecidableEq, Repr

/-- `mpv_log_level` of the mpv C API. -/
inductive LogLevel where
  | None
  | Fatal
  | Error
  | Warn
  | Info
  | V
  | Debug
  | Trace
deriving DecidableEq, Repr

/-- `mpv_format` codes relevant to `PropertyData` (`mpv_format`).
`None` stands for every other format code. -/
inductive MpvFormat where
  | String
  | OsdString
  | Flag
  | Int64
  | Double
  | None
deriving DecidableEq, Repr

/-- The wrapper's `Error` type, restricted to the variants reachable from
the embedded functions. -/
inductive MpvError where
  | VersionMismatch (linked loaded : Nat)
  | Null
  | Mpv (code : Int)
  | NulError
deriving DecidableEq, Repr

/-- `PropertyData` (sync.rs lines 316-322). The C `double` payload is
represented by its bit pattern as an `Int`; no arithmetic on it is
modelled. -/
inductive PropertyData where
  | String (s : String)
  | OsdString (s : String)
  | Flag (b : Bool)
  | Int64 (i : Int)
  | Double (bits : Int)
deriving DecidableEq, Repr

/-- `Event` (sync.rs lines 181-203). `EndFile.reason` is the raw integer
reason code. -/
inductive Event where
  | LogMessage (pfx : String) (level : LogLevel) (text : String)
  | StartFile
  | EndFile (reason : Int) (error : Option MpvError)
  | FileLoaded
  | Idle
  | Tick
  | VideoReconfig
  | AudioReconfig
  | Seek
  | PlaybackRestart
  | PropertyChange (name : String) (data : PropertyData)
deriving DecidableEq, Repr

/-- `Event::as_id` (sync.rs lines 224-238). -/
def Event.as_id : Event → MpvEventId
  | Event.LogMessage _ _ _ => MpvEventId.LogMessage
  | Event.StartFile => MpvEventId.StartFile
  | Event.EndFile _ _ => MpvEventId.EndFile
  | Event.FileLoaded => MpvEventId.FileLoaded
  | Event.Idle => MpvEventId.Idle
  | Event.Tick => MpvEventId.Tick
  | Event.VideoReconfig => MpvEventId.VideoReconfig
  | Event.AudioReconfig => MpvEventId.AudioReconfig
  | Event.Seek => MpvEventId.Seek
  | Event.PlaybackRestart => MpvEventId.PlaybackRestart
  | Event.PropertyChange _ _ => MpvEventId.PropertyChange

/-- `Event::structural_eq` (sync.rs lines 240-255): equality of variants
only, payloads (including property names) ignored. -/
def Event.structural_eq (a b : Event) : Bool :=
  match a, b with
  | Event.LogMessage _ _ _, Event.LogMessage _ _ _ => true
  | Event.StartFile, Event.StartFile => true
  | Event.EndFile _ _, Event.EndFile _ _ => true
  | Event.FileLoaded, Event.FileLoaded => true
  | Event.Idle, Event.Idle => true
  | Event.Tick, Event.Tick => true
  | Event.VideoReconfig, Event.VideoReconfig => true
  | Event.AudioReconfig, Event.AudioReconfig => true
  | Event.Seek, Event.Seek => true
  | Event.PlaybackRestart, Event.PlaybackRestart => true
  | Event.PropertyChange _ _, Event.PropertyChange _ _ => true
  | _, _ => false

/-- `PropertyData::format` (sync.rs lines 325-333). -/
def PropertyData.format : PropertyData → MpvFormat
  | PropertyData.String _ => MpvFormat.String
  | PropertyData.OsdString _ => MpvFormat.OsdString
  | PropertyData.Flag _ => MpvFormat.Flag
  | PropertyData.Int64 _ => MpvFormat.Int64
  | PropertyData.Double _ => MpvFormat.Double

/-- Modelled from the spec: `crate::wrapper::mpv_err` is not under `src/`.
Spec §7 treats any non-zero status from an engine call as a rejection, so
a status code is OK exactly when it is `0`. -/
def mpv_err_ok (code : Int) : Bool :=
  decide (code = 0)

/-- The memory behind the `data` pointer of a raw property event, viewed
as the i64 and double reinterpretations the source reads, plus the string
the pointer could hold for the string formats (never read by the source). -/
structure RawPropPayload where
  asInt64 : Int
  asDouble : Int
  asString : String
deriving DecidableEq, Repr

/-- Payload behind a raw event's `data` pointer. `null` is a NULL
pointer. Text fields are `Option String`: `none` models a C string whose
UTF-8 decoding fails (`mpv_cstr_to_str!(..).unwrap()` panics on it). -/
inductive RawEventData where
  | null
  | endFile (reason : Int) (error : Int)
  | logMessage (pfx : Option String) (level : LogLevel) (text : Option String)
  | property (name : Option String) (fmt : MpvFormat) (data : Option RawPropPayload)
deriving DecidableEq, Repr

/-- A raw `mpv_event` as returned by `mpv_wait_event`. -/
structure RawEvent where
  event_id : MpvEventId
  error : Int
  data : RawEventData
deriving DecidableEq, Repr

/-- `PropertyData::from_raw` (sync.rs lines 335-343). `none` models the
`assert!(!ptr.is_null())` failure or the `unreachable!()` arm; note the
source has no arm for `mpv_format::String` / `OsdString`. -/
def PropertyData.from_raw (fmt : MpvFormat) (ptr : Option RawPropPayload) :
    Option PropertyData :=
  match ptr with
  | none => none
  | some p =>
    match fmt with
    | MpvFormat.Flag => some (PropertyData.Flag (decide (p.asInt64 ≠ 0)))
    | MpvFormat.Int64 => some (PropertyData.Int64 p.asInt64)
    | MpvFormat.Double => some (PropertyData.Double p.asDouble)
    | _ => none

/-- `Event::endfile_from_mpv_sys` (sync.rs lines 275-291). `none` models
a failed assert (NULL pointer, wrong payload shape, or non-positive
reason). -/
def Event.endfile_from_mpv_sys (raw : RawEventData) : Option Event :=
  match raw with
  | RawEventData.endFile reason error =>
    if decide (0 < reason) then
      some (Event.EndFile reason
        (if mpv_err_ok error then none else some (MpvError.Mpv error)))
    else none
  | _ => none

/-- `Event::logmessage_from_mpv_sys` (sync.rs lines 293-301). -/
def Event.logmessage_from_mpv_sys (raw : RawEventData) : Option Event :=
  match raw with
  | RawEventData.logMessage (some pfx) level (some text) =>
    some (Event.LogMessage pfx level text)
  | _ => none

/-- `Event::property_from_mpv_sys` (sync.rs lines 303-310). -/
def Event.property_from_mpv_sys (raw : RawEventData) : Option Event :=
  match raw with
  | RawEventData.property (some name) fmt data =>
    match PropertyData.from_raw fmt data with
    | some pd => some (Event.PropertyChange name pd)
    | none => none
  | _ => none

/-- `Event::from_raw` (sync.rs lines 257-273). `none` models the leading
`assert!(mpv_err((), raw.error).is_ok())` failure, a payload-decoding
assert failure, or the `unreachable!()` arm. -/
def Event.from_raw (raw : RawEvent) : Option Event :=
  if mpv_err_ok raw.error then
    match raw.event_id with
    | MpvEventId.LogMessage => Event.logmessage_from_mpv_sys raw.data
    | MpvEventId.StartFile => some Event.StartFile
    | MpvEventId.EndFile => Event.endfile_from_mpv_sys raw.data
    | MpvEventId.FileLoaded => some Event.FileLoaded
    | MpvEventId.Idle => some Event.Idle
    | MpvEventId.Tick => some Event.Tick
    | MpvEventId.VideoReconfig => some Event.VideoReconfig
    | MpvEventId.AudioReconfig => some Event.AudioReconfig
    | MpvEventId.Seek => some Event.Seek
    | MpvEventId.PlaybackRestart => some Event.PlaybackRestart
    | MpvEventId.PropertyChange => Event.property_from_mpv_sys raw.data
    | _ => none
  else none

/-- `mpv_log_level_as_str` (sync.rs lines 346-358). -/
def mpv_log_level_as_str : LogLevel → String
  | LogLevel.None => "no"
  | LogLevel.Fatal => "fatal"
  | LogLevel.Error => "error"
  | LogLevel.Warn => "warn"
  | LogLevel.Info => "info"
  | LogLevel.V => "v"
  | LogLevel.Debug => "debug"
  | LogLevel.Trace => "trace"

/-- The drain loop of `EventIter::next` (sync.rs lines 437-466,
the labelled loop over `mpv_wait_event`). The pending raw events of the
engine are an explicit script, consumed front to back; the unconsumed
suffix is returned so that where the loop stopped is observable. `last`
is the "previous poll was the no-event sentinel" flag; it is never reset
by the source. `ret` accumulates the caller's direct batch, `obs` the
shared `all_observed` queue. `none` models a decoding panic. An
exhausted script behaves like the C API reporting no event. -/
def drainGo (localTo allTo : List Event) :
    List RawEvent → Bool → List Event → List Event →
    Option (List Event × List Event × List RawEvent)
  | [], _, ret, obs => some (ret, obs, [])
  | ev :: rest, last, ret, obs =>
    if ev.event_id = MpvEventId.QueueOverflow then
      some (ret, obs, rest)
    else if ev.event_id = MpvEventId.None then
      (if last then some (ret, obs, rest)
       else drainGo localTo allTo rest true ret obs)
    else if localTo.any (fun l => decide (ev.event_id = l.as_id)) then
      match Event.from_raw ev with
      | none => none
      | some d => drainGo localTo allTo rest last (ret ++ [d]) obs
    else if allTo.any (fun a => decide (ev.event_id = a.as_id)) then
      match Event.from_raw ev with
      | none => none
      | some d => drainGo localTo allTo rest last ret (obs ++ [d])
    else
      drainGo localTo allTo rest last ret obs

/-- The "no event pending" sentinel raw event. -/
def rawNone : RawEvent :=
  { event_id := MpvEventId.None, error := 0, data := RawEventData.null }

/-- A raw `Idle` event. -/
def rawIdle : RawEvent :=
  { event_id := MpvEventId.Idle, error := 0, data := RawEventData.null }

/-- A raw queue-overflow signal. -/
def rawOverflow : RawEvent :=
  { event_id := MpvEventId.QueueOverflow, error := 0, data := RawEventData.null }

/-- The matching predicate of the `compare_ev` closure in
`EventIter::next` (sync.rs lines 473-487): property-change events match
by property name, everything else by `structural_eq`. -/
def compare_ev_matches (outer inner : Event) : Bool :=
  match outer with
  | Event.PropertyChange oname _ =>
    match inner with
    | Event.PropertyChange iname _ => decide (oname = iname)
    | _ => false
  | _ => Event.structural_eq outer inner

/-- One `Vec::retain` pass of the claim branch for a single `outer`
template: splits `observed` into the claimed events (pushed onto
`ret_events`, in traversal order) and the kept remainder. -/
def claimOne (outer : Event) : List Event → List Event × List Event
  | [] => ([], [])
  | inner :: rest =>
    let pk := claimOne outer rest
    if compare_ev_matches outer inner then (inner :: pk.1, pk.2)
    else (pk.1, inner :: pk.2)

/-- The claim branch of `EventIter::next` (sync.rs lines 488-491): for
each local template in order, remove its matches from `observed` and
append them to `ret_events`. Returns `(ret_events, observed)`. -/
def claimFromObserved (localTo observed : List Event) : List Event × List Event :=
  localTo.foldl
    (fun acc outer =>
      let pk := claimOne outer acc.2
      (acc.1 ++ pk.1, pk.2))
    ([], observed)

/-- The mutable state of one `EventIter` visible to `next`:
`first_iteration`, the shared `all_observed` queue, and the engine's
pending raw-event script. -/
structure IterState where
  first_iteration : Bool
  observed : List Event
  script : List RawEvent
deriving DecidableEq, Repr

/-- Result of running `EventIter::next` with bounded fuel: `yielded` is
`Some(batch)` together with the state left behind, `outOfFuel` means the
outer `loop` was still spinning (in the source it would block or keep
looping), `aborted` is a decoding panic. -/
inductive NextOutcome where
  | yielded (batch : List Event) (s : IterState)
  | outOfFuel (s : IterState)
  | aborted
deriving DecidableEq, Repr

/-- `EventIter::next` (sync.rs lines 424-506). Each fuel step is one
iteration of the outer `loop`; waiting on the condition variable is a
no-op here (a wake is assumed to arrive). The drain branch runs when
`observed` is empty or on the first iteration, starting with a fresh
`ret_events` and `last = false`; otherwise the claim branch runs. The
batch is returned only when `ret_events` is non-empty. -/
def nextIter (localTo allTo : List Event) : Nat → IterState → NextOutcome
  | 0, s => NextOutcome.outOfFuel s
  | n + 1, s =>
    if s.observed.isEmpty || s.first_iteration then
      match drainGo localTo allTo s.script false [] s.observed with
      | none => NextOutcome.aborted
      | some (ret, obs, rest) =>
        if ret.isEmpty then nextIter localTo allTo n ⟨false, obs, rest⟩
        else NextOutcome.yielded ret ⟨false, obs, rest⟩
    else
      let pk := claimFromObserved localTo s.observed
      if pk.1.isEmpty then nextIter localTo allTo n ⟨false, pk.2, s.script⟩
      else NextOutcome.yielded pk.1 ⟨false, pk.2, s.script⟩

/-! ### The engine oracle and the global registries -/

/-- A C-API call issued to the engine by `observe_events` or
`EventIter::drop`. -/
inductive EngineCall where
  | requestEvent (id : MpvEventId) (enable : Bool)
  | requestLogMessages (minLevel : String)
  | observeProperty (obsId : Nat) (name : String) (fmt : MpvFormat)
  | unobserveProperty (obsId : Nat)
deriving DecidableEq, Repr

/-- Modelled from the spec: the engine (libmpv) is an external
collaborator (spec §6). `script` holds the status codes it will return
for successive status-checked calls (an exhausted script means the call
is accepted with status `0`); `log` records every call issued, in
order. -/
structure Engine where
  script : List Int
  log : List EngineCall
deriving DecidableEq, Repr

/-- Issue a status-checked call: record it and consume the next scripted
status code. -/
def Engine.call (eng : Engine) (c : EngineCall) : Engine × Int :=
  match eng.script with
  | [] => ({ script := [], log := eng.log ++ [c] }, 0)
  | code :: rest => ({ script := rest, log := eng.log ++ [c] }, code)

/-- Issue a call whose status the source ignores: record it only. -/
def Engine.issue (eng : Engine) (c : EngineCall) : Engine :=
  { eng with log := eng.log ++ [c] }

/-- `s.contains('\0')`: whether `CString::new(s)` fails with a
`NulError`. -/
def hasNul (s : String) : Bool :=
  s.data.any (fun c => decide (c = Char.ofNat 0))

/-- Association-list lookup mirroring `HashMap::get`. -/
def alLookup : List (String × Nat) → String → Option Nat
  | [], _ => none
  | p :: rest, k => if p.1 = k then some p.2 else alLookup rest k

/-- `HashMap::contains_key`. -/
def alContains (m : List (String × Nat)) (k : String) : Bool :=
  m.any (fun p => decide (p.1 = k))

/-- `HashMap::remove`, returning the removed value and the new map. -/
def alRemove : List (String × Nat) → String → Option (Nat × List (String × Nat))
  | [], _ => none
  | p :: rest, k =>
    if p.1 = k then some (p.2, rest)
    else
      match alRemove rest k with
      | none => none
      | some (v, m) => some (v, p :: m)

/-- `HashMap::insert` (replaces an existing key). -/
def alInsert : List (String × Nat) → String → Nat → List (String × Nat)
  | [], k, v => [(k, v)]
  | p :: rest, k, v => if p.1 = k then (k, v) :: rest else p :: alInsert rest k v

/-- `HashMap::len`. The registries only grow through `alInsert`, so keys
stay distinct and the list length is the number of keys. -/
def alLen (m : List (String × Nat)) : Nat :=
  m.length

/-- The two global registries of `Mpv` used by `observe_events` and
`EventIter::drop`: `ev_to_observe : Vec<Event>` and
`ev_to_observe_properties : HashMap<String, u64>`. -/
structure Registries where
  ev_to_observe : List Event
  ev_to_observe_properties : List (String × Nat)
deriving DecidableEq, Repr

/-- Whether `observe_events`' duplicate checks fire for `e` against the
registries at entry: property-change templates are checked against the
`ev_to_observe_properties` key set (sync.rs line 107), every other
template against the ids already in `ev_to_observe` (lines 118-122). -/
def registered (observe : List Event) (properties : List (String × Nat)) :
    Event → Bool
  | Event.PropertyChange name _ => alContains properties name
  | e => observe.any (fun idEv => decide (e.as_id = idEv.as_id))

/-- Result of the first loop of `observe_events` (sync.rs lines
105-137). -/
inductive Loop1Res where
  | panicked (msg : String)
  | error (e : MpvError)
  | done (evs : List Event) (props : List (String × PropertyData))
deriving DecidableEq, Repr

/-- The optional log-message step of the first loop's non-property
branch (sync.rs lines 124-129): build the min-level `CString` and issue
`mpv_request_log_messages`. Returns the error, if any. -/
def loop1LogStep (elem : Event) (eng : Engine) : Engine × Option MpvError :=
  match elem with
  | Event.LogMessage _ lvl _ =>
    if hasNul (mpv_log_level_as_str lvl) then (eng, some MpvError.NulError)
    else
      let r := eng.call (EngineCall.requestLogMessages (mpv_log_level_as_str lvl))
      if mpv_err_ok r.2 then (r.1, none) else (r.1, some (MpvError.Mpv r.2))
  | _ => (eng, none)

/-- First loop of `observe_events` (sync.rs lines 105-137). `observe`
and `properties` are the locked global registries, read but not written
here. `evs` and `props` are the local accumulators of the source. -/
def observeLoop1 (observe : List Event) (properties : List (String × Nat)) :
    List Event → Engine → List Event → List (String × PropertyData) →
    Engine × Loop1Res
  | [], eng, evs, props => (eng, Loop1Res.done evs props)
  | elem :: rest, eng, evs, props =>
    match elem with
    | Event.PropertyChange name data =>
      if alContains properties name then
        (eng, Loop1Res.panicked ("Tried to observe " ++ name ++ " twice"))
      else
        let r := eng.call (EngineCall.requestEvent elem.as_id true)
        if mpv_err_ok r.2 then
          observeLoop1 observe properties rest r.1 (evs ++ [elem])
            (props ++ [(name, data)])
        else (r.1, Loop1Res.error (MpvError.Mpv r.2))
    | _ =>
      if observe.any (fun idEv => decide (elem.as_id = idEv.as_id)) then
        (eng, Loop1Res.panicked "Tried to observe event twice")
      else
        match loop1LogStep elem eng with
        | (eng1, some e) => (eng1, Loop1Res.error e)
        | (eng1, none) =>
          let r := eng1.call (EngineCall.requestEvent elem.as_id true)
          if mpv_err_ok r.2 then
            observeLoop1 observe properties rest r.1 (evs ++ [elem]) props
          else (r.1, Loop1Res.error (MpvError.Mpv r.2))

/-- Result of the second loop of `observe_events` (sync.rs lines
139-159). -/
inductive Loop2Res where
  | error (e : MpvError)
  | done (propsIns : List (String × Nat))
deriving DecidableEq, Repr

/-- Second loop of `observe_events` (sync.rs lines 141-159): issue
`mpv_observe_property` for each collected property with ids counting up
from `start_id = properties.len()` (threaded here as `i`). On an engine
rejection, the already-issued observations in `propsIns` are unobserved
("// Ignore errors.") and the error is returned; a `NulError` from
`CString::new` propagates with no rollback. -/
def observeLoop2 :
    List (String × PropertyData) → Nat → Engine → List (String × Nat) →
    Engine × Loop2Res
  | [], _, eng, propsIns => (eng, Loop2Res.done propsIns)
  | (nm, d) :: rest, i, eng, propsIns =>
    if hasNul nm then (eng, Loop2Res.error MpvError.NulError)
    else
      let r := eng.call (EngineCall.observeProperty i nm d.format)
      if mpv_err_ok r.2 then
        observeLoop2 rest (i + 1) r.1 (propsIns ++ [(nm, i)])
      else
        (propsIns.foldl
          (fun e pr => Engine.issue e (EngineCall.unobserveProperty pr.2)) r.1,
         Loop2Res.error (MpvError.Mpv r.2))

/-- Outcome of `observe_events`: a Rust `panic!`, an `Err`, or `Ok` with
the `local_to_observe` set of the returned `EventIter`. -/
inductive ObserveOutcome where
  | panicked (msg : String)
  | error (e : MpvError)
  | ok (localToObserve : List Event)
deriving DecidableEq, Repr

/-- `Mpv::observe_events` (sync.rs lines 97-173). The registries are
extended (lines 160-161) only after both loops succeed. -/
def observe_events (regs : Registries) (eng : Engine) (events : List Event) :
    Registries × Engine × ObserveOutcome :=
  match observeLoop1 regs.ev_to_observe regs.ev_to_observe_properties
      events eng [] [] with
  | (eng1, Loop1Res.panicked msg) => (regs, eng1, ObserveOutcome.panicked msg)
  | (eng1, Loop1Res.error e) => (regs, eng1, ObserveOutcome.error e)
  | (eng1, Loop1Res.done evs props) =>
    match observeLoop2 props (alLen regs.ev_to_observe_properties) eng1 [] with
    | (eng2, Loop2Res.error e) => (regs, eng2, ObserveOutcome.error e)
    | (eng2, Loop2Res.done propsIns) =>
      ({ ev_to_observe := regs.ev_to_observe ++ evs,
         ev_to_observe_properties :=
           propsIns.foldl (fun m pr => alInsert m pr.1 pr.2)
             regs.ev_to_observe_properties },
       eng2, ObserveOutcome.ok evs)

/-! ### `EventIter::drop` -/

/-- The `compare_ev_unobserve` closure of `EventIter::drop` (sync.rs
lines 381-411), including its nested log-message branch, which in the
source sits inside the `outer_ev is PropertyChange` arm and tests
`outer_ev.as_id() == LogMessage`. Returns whether the events matched
(so the inner one is removed), the updated property registry, and the
engine; `none` models the `.unwrap()` panic on a missing property id. -/
def compare_ev_unobserve (outer inner : Event)
    (props : List (String × Nat)) (eng : Engine) :
    Option (Bool × List (String × Nat) × Engine) :=
  match outer with
  | Event.PropertyChange oname _ =>
    match inner with
    | Event.PropertyChange iname _ =>
      if oname = iname then
        match alRemove props oname with
        | none => none
        | some (id, props1) =>
          some (true, props1, eng.issue (EngineCall.unobserveProperty id))
      else some (false, props, eng)
    | _ =>
      if Event.as_id outer = MpvEventId.LogMessage ∧
          Event.as_id inner = MpvEventId.LogMessage then
        some (true, props, eng.issue (EngineCall.requestLogMessages "none"))
      else some (false, props, eng)
  | _ =>
    if Event.structural_eq outer inner then
      some (true, props, eng.issue (EngineCall.requestEvent inner.as_id false))
    else some (false, props, eng)

/-- One stateful `Vec::retain(|inner| !compare_ev_unobserve(outer,
inner))` pass, threading the property registry and the engine in
traversal order. -/
def retainUnobserve (outer : Event) :
    List Event → List (String × Nat) → Engine →
    Option (List Event × List (String × Nat) × Engine)
  | [], props, eng => some ([], props, eng)
  | inner :: rest, props, eng =>
    match compare_ev_unobserve outer inner props eng with
    | none => none
    | some (matched, props1, eng1) =>
      match retainUnobserve outer rest props1 eng1 with
      | none => none
      | some (kept, props2, eng2) =>
        some ((if matched then kept else inner :: kept), props2, eng2)

/-- `EventIter::drop` (sync.rs lines 374-418): for each local template,
retain-filter `all_to_observe` and then `all_observed`. Returns the new
`all_to_observe`, `all_observed`, property registry and engine; `none`
models the `.unwrap()` panic inside the closure. -/
def dropRun :
    List Event → List Event → List Event → List (String × Nat) → Engine →
    Option (List Event × List Event × List (String × Nat) × Engine)
  | [], allTo, allObs, props, eng => some (allTo, allObs, props, eng)
  | outer :: rest, allTo, allObs, props, eng =>
    match retainUnobserve outer allTo props eng with
    | none => none
    | some (allTo1, props1, eng1) =>
      match retainUnobserve outer allObs props1 eng1 with
      | none => none
      | some (allObs1, props2, eng2) => dropRun rest allTo1 allObs1 props2 eng2

/-! ### Specification-side classification of a drained raw event

These two definitions state, in the words of the (amended) claim about
the drain pass, where a polled raw event ends up: the drain classifies a
real (non-sentinel, non-overflow) event by its raw id only — into the
caller's direct batch when the id matches the kind of some local
template, else into the shared queue when it matches the kind of some
globally registered template, else it is discarded. -/

/-- The event the drain adds to the caller's direct batch for one polled
raw event, if any. -/
def localClass (localTo : List Event) (ev : RawEvent) : Option Event :=
  if ev.event_id = MpvEventId.None ∨ ev.event_id = MpvEventId.QueueOverflow then
    none
  else if localTo.any (fun l => decide (ev.event_id = l.as_id)) then
    Event.from_raw ev
  else none

/-- The event the drain appends to the shared `all_observed` queue for
one polled raw event, if any. -/
def sharedClass (localTo allTo : List Event) (ev : RawEvent) : Option Event :=
  if ev.event_id = MpvEventId.None ∨ ev.event_id = MpvEventId.QueueOverflow then
    none
  else if localTo.any (fun l => decide (ev.event_id = l.as_id)) then
    none
  else if allTo.any (fun a => decide (ev.event_id = a.as_id)) then
    Event.from_raw ev
  else none

/-- The observe-property requests the second `observe_events` loop
issues for a property list, with ids counting up from `i` — the
spec-side description of loop 2's call sequence, used to pin down the
engine log exactly in the rollback theorem. -/
def obsCalls (i : Nat) : List (String × PropertyData) → List EngineCall
  | [] => []
  | (nm, d) :: rest => EngineCall.observeProperty i nm d.format :: obsCalls (i + 1) rest

/-- The `(name, observation id)` pairs loop 2 accumulates in `props_ins`
for a property list, with ids counting up from `i`. -/
def obsIds (i : Nat) : List (String × PropertyData) → List (String × Nat)
  | [] => []
  | (nm, _) :: rest => (nm, i) :: obsIds (i + 1) rest

/-! ## Helper lemmas -/

/-- A status-checked engine call always appends itself to the call log. -/
theorem Engine.call_log (eng : Engine) (c : EngineCall) :
    (Engine.call eng c).1.log = eng.log ++ [c] := by
  cases hs : eng.script <;> simp [Engine.call, hs]

/-- The rollback fold of `observeLoop2` appends one `unobserveProperty`
call per already-registered observation, in order. -/
theorem foldl_issue_log (l : List (String × Nat)) :
    ∀ eng : Engine,
      (l.foldl (fun e pr => Engine.issue e (EngineCall.unobserveProperty pr.2))
        eng).log =
      eng.log ++ l.map (fun pr => EngineCall.unobserveProperty pr.2) := by
  induction l with
  | nil => intro eng; simp
  | cons p rest ih =>
    intro eng
    rw [List.foldl_cons, ih]
    simp [Engine.issue]

/-- No log-level string contains a NUL byte, so the `CString::new` on it
never fails. -/
theorem log_level_no_nul (lvl : LogLevel) :
    hasNul (mpv_log_level_as_str lvl) = false := by
  cases lvl <;> decide

/-- With an all-accepting engine, the log-message step of the first
`observe_events` loop never fails and leaves the script empty. -/
theorem loop1LogStep_nil (elem : Event) (lg : List EngineCall) :
    ∃ lg2, loop1LogStep elem ⟨[], lg⟩ = ({ script := [], log := lg2 }, none) := by
  cases elem
  case LogMessage p lvl t =>
    exact ⟨lg ++ [EngineCall.requestLogMessages (mpv_log_level_as_str lvl)],
      by simp [loop1LogStep, Engine.call, log_level_no_nul, mpv_err_ok]⟩
  all_goals exact ⟨lg, rfl⟩

/-! ## Claim theorems -/

/-- Claim C1, counterexample: the claim says a drain pass in which a
single sentinel is followed by a real event and later a single further
sentinel does not stop at that later sentinel. With local and global
interest `Idle` and the poll script sentinel, `Idle`, sentinel, `Idle`,
the drain stops at the second (non-consecutive) sentinel: the final
`Idle` poll is left unconsumed (`rest = [rawIdle]` instead of `[]`),
because the source never resets `last` after a real event. -/
theorem c1_counterexample :
    drainGo [Event.Idle] [Event.Idle] [rawNone, rawIdle, rawNone, rawIdle]
        false [] [] =
      some ([Event.Idle], [], [rawIdle]) := by
  decide

/-- Claim C2, counterexample: the claim says an event that does not match
the calling subscriber's kind/property templates but matches a global
interest is appended to the shared queue. With the caller observing only
property `"a"` and the global registry holding properties `"a"` and
`"b"`, a raw property-change event for `"b"` is delivered into the
caller's direct batch (`ret`), and the shared queue stays empty, because
the drain matches by raw event id only and ignores property names. -/
theorem c2_counterexample :
    drainGo [Event.PropertyChange "a" (PropertyData.Flag false)]
        [Event.PropertyChange "a" (PropertyData.Flag false),
         Event.PropertyChange "b" (PropertyData.Flag false)]
        [{ event_id := MpvEventId.PropertyChange, error := 0,
           data := RawEventData.property (some "b") MpvFormat.Flag
             (some ⟨1, 0, ""⟩) }]
        false [] [] =
      some ([Event.PropertyChange "b" (PropertyData.Flag true)], [], []) := by
  decide

/-- Claim C4, counterexample: the claim says a duplicate template within
a single `observe_events` call's event slice panics. Registering
`StartFile` twice in one slice on a fresh `Mpv` succeeds silently: both
copies are enable-requested and both enter `ev_to_observe`, because the
duplicate check reads the global registry, which is extended only after
the loop. -/
theorem c4_counterexample :
    observe_events ⟨[], []⟩ ⟨[], []⟩ [Event.StartFile, Event.StartFile] =
      (⟨[Event.StartFile, Event.StartFile], []⟩,
       ⟨[], [EngineCall.requestEvent MpvEventId.StartFile true,
             EngineCall.requestEvent MpvEventId.StartFile true]⟩,
       ObserveOutcome.ok [Event.StartFile, Event.StartFile]) := by
  decide

/-- Claim C6, counterexample: the claim says that when any engine call in
an `observe_events` batch fails, every engine request successfully issued
earlier in the batch is rolled back before the error is returned. With
events `[StartFile, Seek]` and the engine accepting the first
enable-request and rejecting the second (status `-5`), the call returns
the error with the log holding exactly the two enable requests: the
successful `StartFile` enable is not rolled back (no
`requestEvent StartFile false` is ever issued). -/
theorem c6_counterexample :
    observe_events ⟨[], []⟩ ⟨[0, -5], []⟩ [Event.StartFile, Event.Seek] =
      (⟨[], []⟩,
       ⟨[], [EngineCall.requestEvent MpvEventId.StartFile true,
             EngineCall.requestEvent MpvEventId.Seek true]⟩,
       ObserveOutcome.error (MpvError.Mpv (-5))) ∧
    EngineCall.requestEvent MpvEventId.StartFile false ∉
      [EngineCall.requestEvent MpvEventId.StartFile true,
       EngineCall.requestEvent MpvEventId.Seek true] := by
  decide

/-- Claim C5: the claim (and the spec) say property-observation ids are
monotonic and reused only after explicit unobservation, so no two
simultaneously observed properties share an id. The code assigns
`start_id = properties.len()`, which shrinks when an `EventIter` is
dropped. Failing run, evaluated on the model: observe `"a"` (id 0),
observe `"b"` (id 1), drop the first iterator (removes `"a"`, so the map
length drops to 1), observe `"c"` — `"c"` receives id 1 while `"b"`
still holds id 1. -/
theorem c5_observation_id_collision :
    (observe_events ⟨[], []⟩ ⟨[], []⟩
        [Event.PropertyChange "a" (PropertyData.Flag false)]).1 =
      ⟨[Event.PropertyChange "a" (PropertyData.Flag false)], [("a", 0)]⟩ ∧
    (observe_events
        ⟨[Event.PropertyChange "a" (PropertyData.Flag false)], [("a", 0)]⟩
        ⟨[], []⟩ [Event.PropertyChange "b" (PropertyData.Flag false)]).1 =
      ⟨[Event.PropertyChange "a" (PropertyData.Flag false),
        Event.PropertyChange "b" (PropertyData.Flag false)],
       [("a", 0), ("b", 1)]⟩ ∧
    dropRun [Event.PropertyChange "a" (PropertyData.Flag false)]
        [Event.PropertyChange "a" (PropertyData.Flag false),
         Event.PropertyChange "b" (PropertyData.Flag false)]
        [] [("a", 0), ("b", 1)] ⟨[], []⟩ =
      some ([Event.PropertyChange "b" (PropertyData.Flag false)], [],
        [("b", 1)], ⟨[], [EngineCall.unobserveProperty 0]⟩) ∧
    (observe_events
        ⟨[Event.PropertyChange "b" (PropertyData.Flag false)], [("b", 1)]⟩
        ⟨[], []⟩
        [Event.PropertyChange "c" (PropertyData.Flag false)]).1.ev_to_observe_properties =
      [("b", 1), ("c", 1)] ∧
    alLookup [("b", 1), ("c", 1)] "b" = alLookup [("b", 1), ("c", 1)] "c" :=
  ⟨by decide, by decide, by decide, by decide, by decide⟩

/-- Claim C7: the claim (and the spec's intent, visible in the dead
nested branch of `compare_ev_unobserve`) says dropping an `EventIter`
holding a `LogMessage` template issues `request_log_messages("none")`.
Evaluated at that failing input, the drop removes the template from the
registry but issues `mpv_request_event(LogMessage, 0)` instead: the
log-message disable branch is unreachable because it is nested under the
`outer_ev is PropertyChange` arm, whose `as_id` is never `LogMessage`. -/
theorem c7_logmessage_drop_issues_request_event :
    dropRun [Event.LogMessage "" LogLevel.Info ""]
        [Event.LogMessage "" LogLevel.Info ""] [] [] ⟨[], []⟩ =
      some ([], [], [],
        ⟨[], [EngineCall.requestEvent MpvEventId.LogMessage false]⟩) ∧
    EngineCall.requestLogMessages "none" ∉
      [EngineCall.requestEvent MpvEventId.LogMessage false] := by
  decide

/-- Claim C8: when the raw source reports queue overflow mid-drain, the
drain pass stops polling immediately (the suffix `rest` after the
overflow signal is left unconsumed), no error or panic is produced (the
result is `some`, never `none`), and the events gathered before the
overflow (`ret` and `obs`) are kept for delivery unchanged. -/
theorem c8_overflow_stops_immediately (localTo allTo : List Event) (err : Int)
    (d : RawEventData) (rest : List RawEvent) (last : Bool)
    (ret obs : List Event) :
    drainGo localTo allTo
        (({ event_id := MpvEventId.QueueOverflow, error := err, data := d } :
          RawEvent) :: rest) last ret obs =
      some (ret, obs, rest) := by
  simp [drainGo]

/-- Claim C9: the claim says `PropertyData::from_raw` is total over the
five property formats whenever the data pointer is non-null. Evaluated
on the model: for the `String` and `OsdString` formats with a non-null,
valid payload the function aborts (the `unreachable!()` arm, modelled as
`none`) instead of returning `PropertyData::String` / `OsdString`; only
`Flag`, `Int64` and `Double` are decoded. -/
theorem c9_from_raw_partial :
    PropertyData.from_raw MpvFormat.String (some ⟨7, 7, "hello"⟩) = none ∧
    PropertyData.from_raw MpvFormat.OsdString (some ⟨7, 7, "hello"⟩) = none ∧
    PropertyData.from_raw MpvFormat.Flag (some ⟨1, 0, ""⟩) =
      some (PropertyData.Flag true) ∧
    PropertyData.from_raw MpvFormat.Int64 (some ⟨42, 0, ""⟩) =
      some (PropertyData.Int64 42) ∧
    PropertyData.from_raw MpvFormat.Double (some ⟨0, 99, ""⟩) =
      some (PropertyData.Double 99) := by
  decide

/-- Claim C2, amended: during a drain, classification is by raw event id
(kind) only. The caller's batch receives exactly the consumed real
events whose id matches the kind of some local template (even a
`PropertyChange` whose name matches no local template), the shared queue
receives exactly the consumed real events that do not match a local kind
but match some globally registered kind, in arrival order; everything
else is discarded. -/
theorem c2_drain_classifies_by_raw_id (localTo allTo : List Event) :
    ∀ (s : List RawEvent) (last : Bool) (ret0 obs0 ret obs : List Event)
      (rest : List RawEvent),
    drainGo localTo allTo s last ret0 obs0 = some (ret, obs, rest) →
    ∃ pfx, s = pfx ++ rest ∧
      ret = ret0 ++ pfx.filterMap (localClass localTo) ∧
      obs = obs0 ++ pfx.filterMap (sharedClass localTo allTo) := by
  intro s
  induction s with
  | nil =>
    intro last ret0 obs0 ret obs rest h
    simp only [drainGo, Option.some.injEq, Prod.mk.injEq] at h
    obtain ⟨h1, h2, h3⟩ := h
    subst h1; subst h2; subst h3
    exact ⟨[], by simp⟩
  | cons ev tl ih =>
    intro last ret0 obs0 ret obs rest h
    simp only [drainGo] at h
    by_cases hov : ev.event_id = MpvEventId.QueueOverflow
    · rw [if_pos hov] at h
      simp only [Option.some.injEq, Prod.mk.injEq] at h
      obtain ⟨h1, h2, h3⟩ := h
      subst h1; subst h2; subst h3
      exact ⟨[ev], by simp, by simp [localClass, hov], by simp [sharedClass, hov]⟩
    · rw [if_neg hov] at h
      by_cases hn : ev.event_id = MpvEventId.None
      · rw [if_pos hn] at h
        by_cases hlast : last = true
        · rw [if_pos hlast] at h
          simp only [Option.some.injEq, Prod.mk.injEq] at h
          obtain ⟨h1, h2, h3⟩ := h
          subst h1; subst h2; subst h3
          exact ⟨[ev], by simp, by simp [localClass, hn], by simp [sharedClass, hn]⟩
        · rw [if_neg hlast] at h
          obtain ⟨pfx, hs, hr, ho⟩ := ih true ret0 obs0 ret obs rest h
          exact ⟨ev :: pfx, by simp [hs], by simp [localClass, hn, hr],
            by simp [sharedClass, hn, ho]⟩
      · rw [if_neg hn] at h
        by_cases hl : (localTo.any fun l => decide (ev.event_id = l.as_id)) = true
        · rw [if_pos hl] at h
          cases hfr : Event.from_raw ev with
          | none => simp only [hfr] at h; exact Option.noConfusion h
          | some d =>
            simp only [hfr] at h
            obtain ⟨pfx, hs, hr, ho⟩ := ih last (ret0 ++ [d]) obs0 ret obs rest h
            refine ⟨ev :: pfx, by simp [hs], ?_, ?_⟩
            · simp [List.filterMap_cons, localClass, hov, hn, hl, hfr, hr]
            · simp [List.filterMap_cons, sharedClass, hov, hn, hl, ho]
        · rw [if_neg hl] at h
          by_cases ha : (allTo.any fun a => decide (ev.event_id = a.as_id)) = true
          · rw [if_pos ha] at h
            cases hfr : Event.from_raw ev with
            | none => simp only [hfr] at h; exact Option.noConfusion h
            | some d =>
              simp only [hfr] at h
              obtain ⟨pfx, hs, hr, ho⟩ := ih last ret0 (obs0 ++ [d]) ret obs rest h
              refine ⟨ev :: pfx, by simp [hs], ?_, ?_⟩
              · simp [List.filterMap_cons, localClass, hov, hn, hl, hr]
              · simp [List.filterMap_cons, sharedClass, hov, hn, hl, ha, hfr, ho]
          · rw [if_neg ha] at h
            obtain ⟨pfx, hs, hr, ho⟩ := ih last ret0 obs0 ret obs rest h
            refine ⟨ev :: pfx, by simp [hs], ?_, ?_⟩
            · simp [List.filterMap_cons, localClass, hov, hn, hl, hr]
            · simp [List.filterMap_cons, sharedClass, hov, hn, hl, ha, ho]

/-- Claim C2, amended, witness: the amended classification applied to
the counterexample drain (caller observes property `"a"`, global
registry has `"a"` and `"b"`, one raw property event for `"b"`). -/
theorem c2_witness :
    ∃ pfx,
      [({ event_id := MpvEventId.PropertyChange, error := 0,
          data := RawEventData.property (some "b") MpvFormat.Flag
            (some ⟨1, 0, ""⟩) } : RawEvent)] = pfx ++ [] ∧
      [Event.PropertyChange "b" (PropertyData.Flag true)] =
        [] ++ pfx.filterMap
          (localClass [Event.PropertyChange "a" (PropertyData.Flag false)]) ∧
      ([] : List Event) =
        [] ++ pfx.filterMap
          (sharedClass [Event.PropertyChange "a" (PropertyData.Flag false)]
            [Event.PropertyChange "a" (PropertyData.Flag false),
             Event.PropertyChange "b" (PropertyData.Flag false)]) :=
  c2_drain_classifies_by_raw_id
    [Event.PropertyChange "a" (PropertyData.Flag false)]
    [Event.PropertyChange "a" (PropertyData.Flag false),
     Event.PropertyChange "b" (PropertyData.Flag false)]
    [{ event_id := MpvEventId.PropertyChange, error := 0,
       data := RawEventData.property (some "b") MpvFormat.Flag
         (some ⟨1, 0, ""⟩) }]
    false [] [] [Event.PropertyChange "b" (PropertyData.Flag true)] [] []
    (by decide)

/-- Helper for claim C1: with the `last` flag threaded explicitly, a
drain pass that leaves part of the script unconsumed stopped either at a
queue-overflow signal or at a "no event" sentinel when `last` was
already set or another sentinel had already been consumed in this
pass. -/
theorem drainStopAux (localTo allTo : List Event) :
    ∀ (s : List RawEvent) (last : Bool) (ret0 obs0 ret obs : List Event)
      (rest : List RawEvent),
    drainGo localTo allTo s last ret0 obs0 = some (ret, obs, rest) →
    rest ≠ [] →
    ∃ pfx e, s = pfx ++ e :: rest ∧
      (e.event_id = MpvEventId.QueueOverflow ∨
       (e.event_id = MpvEventId.None ∧
        (last = true ∨
         1 ≤ pfx.countP (fun x => decide (x.event_id = MpvEventId.None))))) := by
  intro s
  induction s with
  | nil =>
    intro last ret0 obs0 ret obs rest h hne
    simp only [drainGo, Option.some.injEq, Prod.mk.injEq] at h
    exact absurd h.2.2.symm hne
  | cons ev tl ih =>
    intro last ret0 obs0 ret obs rest h hne
    simp only [drainGo] at h
    by_cases hov : ev.event_id = MpvEventId.QueueOverflow
    · rw [if_pos hov] at h
      simp only [Option.some.injEq, Prod.mk.injEq] at h
      obtain ⟨_, _, h3⟩ := h
      subst h3
      exact ⟨[], ev, by simp, Or.inl hov⟩
    · rw [if_neg hov] at h
      by_cases hn : ev.event_id = MpvEventId.None
      · rw [if_pos hn] at h
        by_cases hlast : last = true
        · rw [if_pos hlast] at h
          simp only [Option.some.injEq, Prod.mk.injEq] at h
          obtain ⟨_, _, h3⟩ := h
          subst h3
          exact ⟨[], ev, by simp, Or.inr ⟨hn, Or.inl hlast⟩⟩
        · rw [if_neg hlast] at h
          obtain ⟨pfx, e, hs, hcond⟩ := ih true ret0 obs0 ret obs rest h hne
          refine ⟨ev :: pfx, e, by simp [hs], ?_⟩
          rcases hcond with ho | ⟨he, _⟩
          · exact Or.inl ho
          · refine Or.inr ⟨he, Or.inr ?_⟩
            rw [List.countP_cons_of_pos _ _ (by simp [hn])]
            omega
      · rw [if_neg hn] at h
        have hstep :
            ∀ ret1 obs1,
            drainGo localTo allTo tl last ret1 obs1 = some (ret, obs, rest) →
            ∃ pfx e, ev :: tl = pfx ++ e :: rest ∧
              (e.event_id = MpvEventId.QueueOverflow ∨
               (e.event_id = MpvEventId.None ∧
                (last = true ∨
                 1 ≤ pfx.countP
                   (fun x => decide (x.event_id = MpvEventId.None))))) := by
          intro ret1 obs1 h1
          obtain ⟨pfx, e, hs, hcond⟩ := ih last ret1 obs1 ret obs rest h1 hne
          refine ⟨ev :: pfx, e, by simp [hs], ?_⟩
          rcases hcond with ho | ⟨he, hc⟩
          · exact Or.inl ho
          · refine Or.inr ⟨he, hc.imp id (fun hcount => ?_)⟩
            rw [List.countP_cons_of_neg _ _ (by simp [hn])]
            exact hcount
        by_cases hl : (localTo.any fun l => decide (ev.event_id = l.as_id)) = true
        · rw [if_pos hl] at h
          cases hfr : Event.from_raw ev with
          | none => simp only [hfr] at h; exact Option.noConfusion h
          | some d =>
            simp only [hfr] at h
            exact hstep _ _ h
        · rw [if_neg hl] at h
          by_cases ha : (allTo.any fun a => decide (ev.event_id = a.as_id)) = true
          · rw [if_pos ha] at h
            cases hfr : Event.from_raw ev with
            | none => simp only [hfr] at h; exact Option.noConfusion h
            | some d =>
              simp only [hfr] at h
              exact hstep _ _ h
          · rw [if_neg ha] at h
            exact hstep _ _ h

/-- Claim C1, amended: a drain pass terminates early only at a
queue-overflow signal or at a "no event" sentinel when another sentinel
was already consumed earlier in the same pass — the two sentinels need
not be consecutive, because the source never resets `last` after a real
event. In particular a single first sentinel followed by a real event
does not by itself terminate the pass, but the next sentinel after that
does. -/
theorem c1_drain_stops_only_at_overflow_or_second_sentinel
    (localTo allTo : List Event) (s : List RawEvent)
    (ret0 obs0 ret obs : List Event) (rest : List RawEvent)
    (h : drainGo localTo allTo s false ret0 obs0 = some (ret, obs, rest))
    (hne : rest ≠ []) :
    ∃ pfx e, s = pfx ++ e :: rest ∧
      (e.event_id = MpvEventId.QueueOverflow ∨
       (e.event_id = MpvEventId.None ∧
        1 ≤ pfx.countP (fun x => decide (x.event_id = MpvEventId.None)))) := by
  obtain ⟨pfx, e, hs, hcond⟩ :=
    drainStopAux localTo allTo s false ret0 obs0 ret obs rest h hne
  refine ⟨pfx, e, hs, ?_⟩
  rcases hcond with ho | ⟨he, hl | hc⟩
  · exact Or.inl ho
  · exact absurd hl (by simp)
  · exact Or.inr ⟨he, hc⟩

/-- Claim C1, amended, witness: the stop characterization applied to the
counterexample script sentinel, `Idle`, sentinel, `Idle`: the pass stops
with `[rawIdle]` unconsumed, and indeed the stopping element is a
sentinel preceded by one earlier sentinel in the consumed prefix. -/
theorem c1_witness :
    ∃ pfx e,
      [rawNone, rawIdle, rawNone, rawIdle] = pfx ++ e :: [rawIdle] ∧
      (e.event_id = MpvEventId.QueueOverflow ∨
       (e.event_id = MpvEventId.None ∧
        1 ≤ pfx.countP (fun x => decide (x.event_id = MpvEventId.None)))) :=
  c1_drain_stops_only_at_overflow_or_second_sentinel
    [Event.Idle] [Event.Idle] [rawNone, rawIdle, rawNone, rawIdle]
    [] [] [Event.Idle] [] [rawIdle] (by decide) (by decide)

/-- Claim C3: whenever `EventIter::next` returns `Some(batch)`, the
batch is non-empty — the outer loop keeps draining or claiming until
`ret_events` is non-empty and only then returns it. -/
theorem c3_next_batch_nonempty (localTo allTo : List Event) :
    ∀ (fuel : Nat) (s : IterState) (b : List Event) (s1 : IterState),
    nextIter localTo allTo fuel s = NextOutcome.yielded b s1 → b ≠ [] := by
  intro fuel
  induction fuel with
  | zero => intro s b s1 h; simp [nextIter] at h
  | succ n ih =>
    intro s b s1 h
    simp only [nextIter] at h
    by_cases hc : (s.observed.isEmpty || s.first_iteration) = true
    · rw [if_pos hc] at h
      cases hd : drainGo localTo allTo s.script false [] s.observed with
      | none => simp only [hd] at h; exact NextOutcome.noConfusion h
      | some t =>
        obtain ⟨ret, obs, rest⟩ := t
        simp only [hd] at h
        by_cases hr : ret.isEmpty = true
        · rw [if_pos hr] at h
          exact ih _ _ _ h
        · rw [if_neg hr] at h
          injection h with hb hs1
          subst hb
          intro hnil
          rw [hnil] at hr
          simp at hr
    · rw [if_neg hc] at h
      by_cases hr : (claimFromObserved localTo s.observed).1.isEmpty = true
      · rw [if_pos hr] at h
        exact ih _ _ _ h
      · rw [if_neg hr] at h
        injection h with hb hs1
        subst hb
        intro hnil
        rw [hnil] at hr
        simp at hr

/-- Claim C3, witness: a first pull over a script holding one `Idle`
event yields the non-empty batch `[Idle]`. -/
theorem c3_witness : ([Event.Idle] : List Event) ≠ [] :=
  c3_next_batch_nonempty [Event.Idle] [Event.Idle] 1 ⟨true, [], [rawIdle]⟩
    [Event.Idle] ⟨false, [], []⟩ (by decide)

/-- Helper for claim C4: with an all-accepting engine, the first loop of
`observe_events` ends in a panic whenever some requested event is
already registered in the global registries read at entry. -/
theorem observeLoop1_panics (observe : List Event)
    (properties : List (String × Nat)) :
    ∀ (events : List Event) (lg : List EngineCall) (evs : List Event)
      (props : List (String × PropertyData)) (ev : Event),
    ev ∈ events → registered observe properties ev = true →
    ∃ msg, (observeLoop1 observe properties events ⟨[], lg⟩ evs props).2 =
      Loop1Res.panicked msg := by
  intro events
  induction events with
  | nil => intro lg evs props ev hmem _; simp at hmem
  | cons elem rest ih =>
    intro lg evs props ev hmem hreg
    cases elem
    case PropertyChange name data =>
      simp only [observeLoop1]
      split
      · exact ⟨_, rfl⟩
      · rename_i hc
        simp [Engine.call, mpv_err_ok]
        rcases List.mem_cons.mp hmem with hev | hmem2
        · rw [hev] at hreg
          simp only [registered] at hreg
          exact absurd hreg hc
        · exact ih _ _ _ _ hmem2 hreg
    all_goals
      (simp only [observeLoop1, loop1LogStep]
       split <;>
         first
           | exact ⟨_, rfl⟩
           | (rename_i hc
              simp [log_level_no_nul, Engine.call, mpv_err_ok]
              rcases List.mem_cons.mp hmem with hev | hmem2
              · rw [hev] at hreg
                simp only [registered] at hreg
                exact absurd hreg hc
              · exact ih _ _ _ _ hmem2 hreg))

/-- Claim C4, amended: `observe_events` panics exactly on templates that
are already present in the global registries at entry — i.e. templates
registered by an earlier `observe_events` call on the same `Mpv`,
regardless of which subscription requested them. Here: with an
all-accepting engine, if some requested event is registered at entry
(property name already a key of `ev_to_observe_properties`, or kind id
already present in `ev_to_observe`), the call panics. Duplicates within
a single call's slice are not detected (see the counterexample). -/
theorem c4_panics_on_preregistered (regs : Registries) (events : List Event)
    (ev : Event) (lg : List EngineCall)
    (hmem : ev ∈ events)
    (hreg : registered regs.ev_to_observe regs.ev_to_observe_properties ev =
      true) :
    ∃ msg, (observe_events regs ⟨[], lg⟩ events).2.2 =
      ObserveOutcome.panicked msg := by
  obtain ⟨msg, hm⟩ := observeLoop1_panics regs.ev_to_observe
    regs.ev_to_observe_properties events lg [] [] ev hmem hreg
  refine ⟨msg, ?_⟩
  unfold observe_events
  rcases h1 : observeLoop1 regs.ev_to_observe regs.ev_to_observe_properties
      events ⟨[], lg⟩ [] [] with ⟨eng1, r1⟩
  rw [h1] at hm
  simp only [Prod.snd] at hm
  subst hm
  rfl

/-- Claim C4, amended, witness: requesting `Tick` when `Tick` is already
in the global `ev_to_observe` registry panics. -/
theorem c4_witness :
    ∃ msg, (observe_events ⟨[Event.Tick], []⟩ ⟨[], []⟩ [Event.Tick]).2.2 =
      ObserveOutcome.panicked msg :=
  c4_panics_on_preregistered ⟨[Event.Tick], []⟩ [Event.Tick] Event.Tick []
    (by decide) (by decide)

/-- Claim C6, amended: only observe-property requests are rolled back.
When an `mpv_observe_property` call in the second loop of
`observe_events` is rejected by the engine, the engine log extends over
the entry log by exactly: one observe request per property before the
failing one (`obsCalls`), the failing observe request itself, and then
exactly one `unobserveProperty` per observation issued earlier in the
same batch — both the entry `props_ins` entries and every observation
this run issued (`obsIds`), in order, and nothing else. In particular a
no-rollback log cannot satisfy this shape. Enable-event and log-level
requests from the first loop are never rolled back (see the
counterexample). -/
theorem c6_property_rollback (props : List (String × PropertyData)) :
    ∀ (i : Nat) (eng : Engine) (propsIns : List (String × Nat))
      (eng1 : Engine) (c : Int),
    observeLoop2 props i eng propsIns = (eng1, Loop2Res.error (MpvError.Mpv c)) →
    ∃ (done : List (String × PropertyData)) (nm : String) (d : PropertyData)
      (rest2 : List (String × PropertyData)),
      props = done ++ (nm, d) :: rest2 ∧
      eng1.log = eng.log ++ obsCalls i done ++
        [EngineCall.observeProperty (i + done.length) nm d.format] ++
        (propsIns ++ obsIds i done).map
          (fun pr => EngineCall.unobserveProperty pr.2) := by
  induction props with
  | nil =>
    intro i eng propsIns eng1 c h
    simp only [observeLoop2, Prod.mk.injEq] at h
    exact absurd h.2 (by simp)
  | cons pd rest ih =>
    obtain ⟨nm, d⟩ := pd
    intro i eng propsIns eng1 c h
    simp only [observeLoop2] at h
    by_cases hnul : hasNul nm = true
    · rw [if_pos hnul] at h
      simp only [Prod.mk.injEq] at h
      exact absurd h.2 (by simp)
    · rw [if_neg hnul] at h
      by_cases hok :
          mpv_err_ok
            (Engine.call eng (EngineCall.observeProperty i nm d.format)).2 =
            true
      · rw [if_pos hok] at h
        obtain ⟨done, nm2, d2, rest2, hsplit, hlog⟩ := ih (i + 1) _ _ eng1 c h
        refine ⟨(nm, d) :: done, nm2, d2, rest2, by simp [hsplit], ?_⟩
        rw [hlog, Engine.call_log]
        simp only [obsCalls, obsIds, List.length_cons]
        rw [show i + (done.length + 1) = i + 1 + done.length from by omega]
        simp [List.append_assoc]
      · rw [if_neg hok] at h
        simp only [Prod.mk.injEq] at h
        obtain ⟨he, _⟩ := h
        refine ⟨[], nm, d, rest, by simp, ?_⟩
        rw [← he, foldl_issue_log, Engine.call_log]
        simp [obsCalls, obsIds, List.append_assoc]

/-- Claim C6, amended, witness: two properties, the engine accepts the
first observe request and rejects the second with status `-3`; the
rollback shape forces the log to end with `unobserveProperty 0` for the
observation issued earlier in the batch. -/
theorem c6_witness :
    ∃ (done : List (String × PropertyData)) (nm : String) (d : PropertyData)
      (rest2 : List (String × PropertyData)),
      [("a", PropertyData.Flag false), ("b", PropertyData.Flag false)] =
        done ++ (nm, d) :: rest2 ∧
      (Engine.mk []
        [EngineCall.observeProperty 0 "a" MpvFormat.Flag,
         EngineCall.observeProperty 1 "b" MpvFormat.Flag,
         EngineCall.unobserveProperty 0]).log =
      (Engine.mk [0, -3] []).log ++ obsCalls 0 done ++
        [EngineCall.observeProperty (0 + done.length) nm d.format] ++
        ((([] : List (String × Nat)) ++ obsIds 0 done).map
          (fun pr => EngineCall.unobserveProperty pr.2)) :=
  c6_property_rollback
    [("a", PropertyData.Flag false), ("b", PropertyData.Flag false)] 0
    ⟨[0, -3], []⟩ []
    ⟨[], [EngineCall.observeProperty 0 "a" MpvFormat.Flag,
          EngineCall.observeProperty 1 "b" MpvFormat.Flag,
          EngineCall.unobserveProperty 0]⟩
    (-3) (by decide)

/-- Claim C10: if `observe_events` returns an error, the global
registries `ev_to_observe` and `ev_to_observe_properties` are exactly
as they were before the call — they are extended only after every
fallible engine call in the batch has succeeded. -/
theorem c10_error_preserves_registries (regs : Registries) (eng : Engine)
    (events : List Event) (e : MpvError)
    (h : (observe_events regs eng events).2.2 = ObserveOutcome.error e) :
    (observe_events regs eng events).1 = regs := by
  unfold observe_events at h ⊢
  rcases h1 : observeLoop1 regs.ev_to_observe regs.ev_to_observe_properties
      events eng [] [] with ⟨eng1, r1⟩
  rw [h1] at h
  cases r1 with
  | panicked msg => rfl
  | error e2 => rfl
  | done evs props =>
    dsimp only at h ⊢
    rcases h2 : observeLoop2 props (alLen regs.ev_to_observe_properties) eng1 []
      with ⟨eng2, r2⟩
    rw [h2] at h
    cases r2 with
    | error e2 => rfl
    | done propsIns => simp at h

/-- Claim C10, witness: an error run (the engine rejects the enable
request with status `-1`) leaves the non-trivial initial registries
untouched. -/
theorem c10_witness :
    (observe_events ⟨[Event.Tick], [("x", 0)]⟩ ⟨[-1], []⟩ [Event.StartFile]).1 =
      ⟨[Event.Tick], [("x", 0)]⟩ :=
  c10_error_preserves_registries ⟨[Event.Tick], [("x", 0)]⟩ ⟨[-1], []⟩
    [Event.StartFile] (MpvError.Mpv (-1)) (by decide)

end MpvRs
